import Mathlib

/-!
# Verification of the alertsinua terminal dashboard core

Shallow embedding of the core data model and operations of the
`alertsinua-cli` repository (Rust), translated from:

* `src/alerts.rs`   — `Alert`, `AlertsResponseString`, `AlertsByRegion`,
  `AlertStatus` and its `From<char>` instance;
* `src/ukraine.rs`  — `Region`, `RegionsList` (selection navigation over the
  ratatui `ListState`), `Ukraine::set_alerts` (the `Vec<Alert>` merge path);
* `src/data.rs`     — the pure core of `DataRepository::fetch_alerts_string`
  (quote trimming + `ArrayString<27>` fill) and of
  `DataRepository::fetch_regions` (`ArrayVec<Region,27>::from_iter`);
* `src/app.rs`      — the `Action` type as used by `App::run`, the
  `Action::Fetch` arm of the drain loop, and the drain loop's scheduling of
  derived actions over the single unbounded mpsc channel.

Rust `panic!`-able operations are modelled as `Option`-returning functions
where `none` stands for a panic; fallible async operations are modelled by
passing their result (`Except`) as an explicit argument.
-/

namespace AlertsInUa

/-- Per-region alert status, from `enum AlertStatus { A, P, N }` in
`src/alerts.rs` (A = active, P = partially active, N = no information). -/
inductive AlertStatus where
  | A
  | P
  | N
deriving DecidableEq, Repr

/-- `impl Default for AlertStatus` in `src/alerts.rs`: the default is `N`. -/
def AlertStatus.default : AlertStatus := .N

/-- `impl From<char> for AlertStatus` in `src/alerts.rs`:
`'A' => A, 'P' => P, _ => N` (a Rust `match` on the character literal,
case-sensitive, with a catch-all arm to `N`). -/
def AlertStatus.ofChar (c : Char) : AlertStatus :=
  if c = 'A' then .A else if c = 'P' then .P else .N

/-- One alert record, from `struct Alert` in `src/alerts.rs`.  `DateTime<Utc>`
is modelled as its textual form (no claim depends on its structure); all other
fields keep their source names and shapes. -/
structure Alert where
  id : Int
  location_title : String
  location_type : String
  started_at : String
  finished_at : Option String
  updated_at : String
  alert_type : String
  location_oblast : String
  location_uid : String
  notes : Option String
  country : Option String
  calculated : Option Bool
  location_oblast_uid : Option Int
deriving DecidableEq, Repr

/-- One administrative region, from `struct Region` in `src/ukraine.rs`.
The `i8`/`i64` identifier fields are modelled as `Int` (no arithmetic is ever
performed on them, only equality after the source's `as i32` widening, which
is lossless from `i8`). -/
structure Region where
  id : Int
  a_id : Int
  osm_id : Int
  geo : String
  name : String
  name_en : String
  status : Option String
deriving DecidableEq, Repr

/-! ## The pure core of `DataRepository::fetch_alerts_string` (`src/data.rs`)

The source trims surrounding `'"'` characters from the HTTP response with
`str::trim_matches('"')` and then pushes the result into a fresh
`ArrayString::<27>` with `push_str`.  `ArrayString::push_str` panics when the
pushed string exceeds the remaining capacity and otherwise copies the string
verbatim — there is no length *equality* check anywhere on this path. -/

/-- Rust `str::trim_matches('"')`: repeatedly removes the quote character from
both ends of the string. -/
def trimQuotes (s : List Char) : List Char :=
  ((s.dropWhile (· = '"')).reverse.dropWhile (· = '"')).reverse

/-- The pure core of `DataRepository::fetch_alerts_string` (`src/data.rs`):
trim surrounding quotes, then fill an `ArrayString::<27>` via `push_str`.
`none` models the `push_str` capacity-exceeded panic (trimmed length > 27);
any trimmed string of length ≤ 27 is accepted verbatim, including strings
shorter than 27. -/
def fetch_alerts_string (response : List Char) : Option (List Char) :=
  let text := trimQuotes response
  if text.length ≤ 27 then some text else none

/-! ## The pure core of `DataRepository::fetch_regions` (`src/data.rs`)

The source collects the database rows with
`ArrayVec::<Region, 27>::from_iter(regions)`.  `from_iter` panics when the
iterator yields more elements than the capacity and otherwise keeps exactly
the yielded elements — a shorter row set is accepted as-is. -/

/-- `ArrayVec::<Region, 27>::from_iter` over the queried rows: `none` models
the capacity-exceeded panic (more than 27 rows); otherwise the rows are kept
unchanged, however few there are. -/
def fetch_regions (rows : List Region) : Option (List Region) :=
  if rows.length ≤ 27 then some rows else none

/-! ## Claim theorems (first group) -/

/-- **C7.** Per-character status decoding (`impl From<char> for AlertStatus`,
`src/alerts.rs:81-89`) maps `'A'` to `A` (Active), `'P'` to `P` (Partial),
and every other character — including `'N'` and lowercase variants — to `N`
(None), case-sensitively; it is a pure total function of the character. -/
theorem c7_char_decode :
    AlertStatus.ofChar 'A' = .A ∧ AlertStatus.ofChar 'P' = .P ∧
    AlertStatus.ofChar 'N' = .N ∧
    (∀ c : Char, c ≠ 'A' → c ≠ 'P' → AlertStatus.ofChar c = .N) := by
  refine ⟨rfl, rfl, rfl, ?_⟩
  intro c h1 h2
  simp [AlertStatus.ofChar, h1, h2]

/-- Witness for C7: the catch-all arm at concrete characters, in particular
lowercase `'a'` and `'p'` (case-sensitivity) map to `N`. -/
theorem c7_char_decode_witness :
    AlertStatus.ofChar 'a' = .N ∧ AlertStatus.ofChar 'p' = .N ∧
    AlertStatus.ofChar 'X' = .N :=
  ⟨c7_char_decode.2.2.2 'a' (by decide) (by decide),
   c7_char_decode.2.2.2 'p' (by decide) (by decide),
   c7_char_decode.2.2.2 'X' (by decide) (by decide)⟩

/-- A concrete region row used in counterexamples (field values are
irrelevant to the length-driven behaviour under scrutiny). -/
def sampleRegion : Region :=
  { id := 1, a_id := 1, osm_id := 90726, geo := "",
    name := "Khmelnytska", name_en := "Khmelnytska oblast", status := none }

/-- **C2 counterexample.** The claim says decoding fails (with `WrongLength`)
whenever the trimmed length is not 27.  The code (`fetch_alerts_string`,
`src/data.rs:135-155`) has no such check: the 5-character response `"ANNNP"`
has trimmed length 5 ≠ 27 yet is accepted into the 27-capacity container. -/
theorem c2_wrong_length_cex :
    (trimQuotes ("ANNNP".toList)).length ≠ 27 ∧
    (fetch_alerts_string ("ANNNP".toList)).isSome = true := by
  decide

/-- **C2 (amended).** `fetch_alerts_string` succeeds exactly when the trimmed
response has length ≤ 27 (so strings shorter than 27 *are* accepted, filling
the 27-slot container only partially), and on success returns the trimmed
text verbatim; a trimmed length > 27 is a panic (`ArrayString::push_str`
capacity overflow), not a structured `WrongLength` error. -/
theorem c2_fetch_alerts_string_length :
    ∀ response : List Char,
      ((fetch_alerts_string response).isSome ↔ (trimQuotes response).length ≤ 27) ∧
      ((trimQuotes response).length ≤ 27 →
        fetch_alerts_string response = some (trimQuotes response)) := by
  intro response
  constructor
  · by_cases h : (trimQuotes response).length ≤ 27 <;> simp [fetch_alerts_string, h]
  · intro h
    simp [fetch_alerts_string, h]

/-- Witness for C2 (amended): the too-short response is accepted verbatim. -/
theorem c2_fetch_alerts_string_length_witness :
    fetch_alerts_string ("ANNNP".toList) = some (trimQuotes ("ANNNP".toList)) :=
  (c2_fetch_alerts_string_length ("ANNNP".toList)).2 (by decide)

/-- **C4 counterexample.** The claim says supplying any number of regions
other than 27 to the region-replacement operation fails fatally.  The code
(`fetch_regions`, `src/data.rs:106-114`) builds the result with
`ArrayVec::<Region,27>::from_iter`, which only panics on *more* than 27
elements: a single-region row set (length 1 ≠ 27) is accepted silently and
startup proceeds with a partial region set. -/
theorem c4_region_hydration_cex :
    ([sampleRegion].length ≠ 27) ∧ (fetch_regions [sampleRegion]).isSome = true := by
  constructor
  · decide
  · rfl

/-- **C4 (amended).** Region hydration succeeds exactly when at most 27 rows
are supplied: more than 27 rows panic (`ArrayVec` capacity overflow), while
27 or fewer — in particular fewer than 27 — are accepted as-is, proceeding
with a partial region set rather than aborting. -/
theorem c4_fetch_regions_length :
    ∀ rows : List Region,
      ((fetch_regions rows).isSome ↔ rows.length ≤ 27) ∧
      (rows.length ≤ 27 → fetch_regions rows = some rows) := by
  intro rows
  constructor
  · by_cases h : rows.length ≤ 27 <;> simp [fetch_regions, h]
  · intro h
    simp [fetch_regions, h]

/-- Witness for C4 (amended): a one-row hydration is kept unchanged. -/
theorem c4_fetch_regions_length_witness :
    fetch_regions [sampleRegion] = some [sampleRegion] :=
  (c4_fetch_regions_length [sampleRegion]).2 (by decide)

/-! ## The list model (`src/ukraine.rs`)

`RegionsList` wraps a `Vec<ListItem>` plus a ratatui `ListState` plus a
`last_selected` memo.  The relevant part of ratatui's `ListState` is:
`offset : usize`, `selected : Option<usize>`, and
`select(index)` which stores `index` and, **when `index` is `None`, resets
`offset` to 0** — that reset is why `unselect` in the source saves and
restores the offset around the `select(None)` call. -/

/-- Colors used by `Region::to_list_item` (the `ALERT_ROW_COLOR`,
`MARKER_COLOR` and `TEXT_COLOR` constants of the binary crate, kept
abstract). -/
inductive Color where
  | alertRow
  | marker
  | text
deriving DecidableEq, Repr

/-- A rendered list row: the formatted line of `Region::to_list_item`
together with its style color. -/
structure ListItem where
  line : String
  color : Color
deriving DecidableEq, Repr

/-- `Region::to_list_item` (`src/ukraine.rs:38-48`): a Rust `match` on the
status character — `'A'` renders the alert marker `⊙` in the alert-row
color, `'P'` the plain line in the marker color, anything else the plain
line in the default text color. -/
def Region.to_list_item (self : Region) (index : Int) (alert_status : Char) : ListItem :=
  let name := self.name
  if alert_status = 'A' then
    { line := toString index ++ ") " ++ name ++ " ⊙", color := .alertRow }
  else if alert_status = 'P' then
    { line := toString index ++ ") " ++ name, color := .marker }
  else
    { line := toString index ++ ") " ++ name, color := .text }

/-- ratatui `ListState`: scroll offset plus optional selected index. -/
structure ListState where
  offset : Nat
  selected : Option Nat
deriving DecidableEq, Repr

/-- ratatui `ListState::select`: stores the index; selecting `None` resets
the scroll offset to 0. -/
def ListState.select (self : ListState) (index : Option Nat) : ListState :=
  { selected := index, offset := if index.isNone then 0 else self.offset }

/-- `struct RegionsList` (`src/ukraine.rs:51-59`). -/
structure RegionsList where
  items : List ListItem
  state : ListState
  last_selected : Option Nat
deriving DecidableEq, Repr

/-- `RegionsList::next` (`src/ukraine.rs:83-96`): step the selection forward,
wrapping from the last item (`i >= items.len() - 1`) back to 0; with no
current selection, resume from `last_selected` (default 0). -/
def RegionsList.next (self : RegionsList) : RegionsList :=
  let i : Nat :=
    match self.state.selected with
    | some i => if i ≥ self.items.length - 1 then 0 else i + 1
    | none => self.last_selected.getD 0
  { self with state := self.state.select (some i) }

/-- `RegionsList::previous` (`src/ukraine.rs:99-112`): step the selection
backward, wrapping from 0 to the last item. -/
def RegionsList.previous (self : RegionsList) : RegionsList :=
  let i : Nat :=
    match self.state.selected with
    | some i => if i = 0 then self.items.length - 1 else i - 1
    | none => self.last_selected.getD 0
  { self with state := self.state.select (some i) }

/-- `RegionsList::unselect` (`src/ukraine.rs:114-119`): save the offset,
memoize the selection into `last_selected`, `select(None)` (which zeroes the
offset), then write the saved offset back. -/
def RegionsList.unselect (self : RegionsList) : RegionsList :=
  let offset := self.state.offset
  let st1 := self.state.select none
  { self with
    last_selected := self.state.selected,
    state := { st1 with offset := offset } }

/-- `RegionsList::go_top` (`src/ukraine.rs:121-123`). -/
def RegionsList.go_top (self : RegionsList) : RegionsList :=
  { self with state := self.state.select (some 0) }

/-- `RegionsList::go_bottom` (`src/ukraine.rs:125-127`). -/
def RegionsList.go_bottom (self : RegionsList) : RegionsList :=
  { self with state := self.state.select (some (self.items.length - 1)) }

/-- Iterating `next` from a valid selection over a 27-item list advances the
selection as `+1 (mod 27)` per step and preserves the item list length. -/
lemma next_iterate_selected (rl : RegionsList) (i : Nat)
    (h27 : rl.items.length = 27) (hsel : rl.state.selected = some i) (hi : i < 27) :
    ∀ k : Nat, (RegionsList.next^[k] rl).items.length = 27 ∧
      (RegionsList.next^[k] rl).state.selected = some ((i + k) % 27) := by
  intro k
  induction k with
  | zero =>
    simp only [Function.iterate_zero, id_eq, Nat.add_zero, Nat.mod_eq_of_lt hi]
    exact ⟨h27, hsel⟩
  | succ k ih =>
    obtain ⟨hlen, hsel'⟩ := ih
    rw [Function.iterate_succ_apply']
    constructor
    · simp [RegionsList.next]
      exact hlen
    · simp only [RegionsList.next, ListState.select, hsel', hlen]
      simp only [Option.some.injEq]
      split <;> omega

/-- **C8.** Selection navigation is circular over the 27-element list
(`RegionsList::next`, `src/ukraine.rs:83-96`): from any selected index
`i < 27`, 27 invocations of `next` return the selection to `i`. -/
theorem c8_select_next_circular (rl : RegionsList) (i : Nat)
    (h27 : rl.items.length = 27) (hsel : rl.state.selected = some i) (hi : i < 27) :
    (RegionsList.next^[27] rl).state.selected = some i := by
  have h := (next_iterate_selected rl i h27 hsel hi 27).2
  rw [h]
  congr 1
  omega

/-- A concrete 27-item list with index 5 selected, for the C8 witness. -/
def sampleList : RegionsList :=
  { items := List.replicate 27 (sampleRegion.to_list_item 0 'N'),
    state := { offset := 0, selected := some 5 },
    last_selected := none }

/-- Witness for C8: 27 `next` steps from selected index 5 of a 27-item list
land back on 5. -/
theorem c8_select_next_circular_witness :
    (RegionsList.next^[27] sampleList).state.selected = some 5 :=
  c8_select_next_circular sampleList 5 (by simp [sampleList]) rfl (by decide)

/-- **C9.** `RegionsList::unselect` (`src/ukraine.rs:114-119`) clears the
active selection while leaving the scroll offset unchanged — even though the
underlying `ListState::select(None)` would reset the offset to 0, the saved
offset is written back. -/
theorem c9_unselect_preserves_offset :
    ∀ rl : RegionsList,
      (rl.unselect).state.offset = rl.state.offset ∧
      (rl.unselect).state.selected = none := by
  intro rl
  exact ⟨rfl, rfl⟩

/-! ## `Ukraine::set_alerts` over a structured alert list (`src/ukraine.rs:234-252`)

The source iterates over the 27 regions; for each it runs
`alerts.iter().find(|alert| alert.location_oblast_uid.unwrap() == item.id as i32)`.
The `unwrap()` panics on the first examined alert whose
`location_oblast_uid` is `None` — `find` examines alerts left to right and
stops at the first match, so an absent uid only panics when it is inspected
before a match.  On a match the region's status becomes `Some("A")`
(the inner `if Some(alert).is_some()` is always true); otherwise `None`.
`none` in the models below stands for that panic. -/

/-- The `find` call of `Ukraine::set_alerts`: scan the alert list left to
right for the first record whose `location_oblast_uid` equals the region id;
`none` models the `unwrap()` panic on an examined record with an absent uid. -/
def findAlert : List Alert → Int → Option (Option Alert)
  | [], _ => some none
  | a :: rest, rid =>
    match a.location_oblast_uid with
    | none => none
    | some uid => if uid = rid then some (some a) else findAlert rest rid

/-- `Ukraine::set_alerts` (`src/ukraine.rs:234-252`): rebuild the region
list, giving each region status `Some "A"` when some alert record's
`location_oblast_uid` matches its `id`, and `None` otherwise; `none` models
a panic inside the per-region `find`. -/
def Ukraine.set_alerts : List Region → List Alert → Option (List Region)
  | [], _ => some []
  | r :: rest, alerts =>
    match findAlert alerts r.id with
    | none => none
    | some found =>
      match Ukraine.set_alerts rest alerts with
      | none => none
      | some rs =>
        some (({ r with status := if found.isSome then some "A" else none }) :: rs)

/-- The Boolean match predicate of `Ukraine::set_alerts`: does this alert
record carry the given region id? -/
def alertMatches (rid : Int) (a : Alert) : Bool :=
  decide (a.location_oblast_uid = some rid)

/-- When every alert record carries a present `location_oblast_uid`, the
per-region `find` never panics, and it finds a record exactly when some
record in the list matches the region id. -/
lemma findAlert_of_all_some (alerts : List Alert) (rid : Int)
    (h : ∀ a ∈ alerts, (a.location_oblast_uid).isSome = true) :
    ∃ x, findAlert alerts rid = some x ∧ x.isSome = alerts.any (alertMatches rid) := by
  induction alerts with
  | nil => exact ⟨none, rfl, rfl⟩
  | cons a rest ih =>
    have ha : (a.location_oblast_uid).isSome = true := h a (by simp)
    obtain ⟨uid, huid⟩ := Option.isSome_iff_exists.mp ha
    by_cases heq : uid = rid
    · refine ⟨some a, ?_, ?_⟩
      · simp [findAlert, huid, heq]
      · simp [alertMatches, huid, heq]
    · obtain ⟨x, hx, hxs⟩ := ih (fun b hb => h b (by simp [hb]))
      refine ⟨x, ?_, ?_⟩
      · simp [findAlert, huid, heq, hx]
      · simp [alertMatches, huid, heq, hxs]

/-- A concrete alert record whose `location_oblast_uid` is present
(`some 1`, matching `sampleRegion.id`); the other fields are immaterial. -/
def goodAlert : Alert :=
  { id := 8757, location_title := "Luhanska oblast", location_type := "oblast",
    started_at := "2022-04-04T16:45:39.000Z", finished_at := none,
    updated_at := "2023-10-29 18:22:37", alert_type := "air_raid",
    location_oblast := "Luhanska oblast", location_uid := "16", notes := none,
    country := none, calculated := none, location_oblast_uid := some 1 }

/-- A concrete alert record with an absent `location_oblast_uid`, as the
calculated hromada-level records of the feed can carry. -/
def badAlert : Alert :=
  { goodAlert with id := 71710, location_oblast_uid := none }

/-- **C10.** `Ukraine::set_alerts` (`src/ukraine.rs:234-252`) is total under
the precondition that every alert record carries a present
`location_oblast_uid` — the `unwrap()` panic branch is then unreachable —
and, conversely, an inspected record with an absent uid panics: the concrete
region/alert pair below hits the `unwrap()` of a `None` uid. -/
theorem c10_set_alerts_total :
    (∀ (regions : List Region) (alerts : List Alert),
      (∀ a ∈ alerts, (a.location_oblast_uid).isSome = true) →
      (Ukraine.set_alerts regions alerts).isSome = true) ∧
    Ukraine.set_alerts [sampleRegion] [badAlert] = none := by
  constructor
  · intro regions alerts h
    induction regions with
    | nil => rfl
    | cons r rest ih =>
      obtain ⟨x, hx, _⟩ := findAlert_of_all_some alerts r.id h
      obtain ⟨rs, hrs⟩ := Option.isSome_iff_exists.mp ih
      simp [Ukraine.set_alerts, hx, hrs]
  · rfl

/-- Witness for C10: with every uid present, the merge returns normally. -/
theorem c10_set_alerts_total_witness :
    (Ukraine.set_alerts [sampleRegion] [goodAlert]).isSome = true :=
  c10_set_alerts_total.1 [sampleRegion] [goodAlert] (by decide)

/-- **C5.** After `Ukraine::set_alerts` (`src/ukraine.rs:234-252`) — run
under the totality precondition of C10 — region `i`'s status is `Some "A"`
exactly when some alert record's `location_oblast_uid` matches that region's
`id`, and `None` otherwise, regardless of the region's previous status: a
full per-cycle replacement, so a region absent from the alert list is
cleared immediately. -/
theorem c5_apply_alerts_status :
    ∀ (regions : List Region) (alerts : List Alert),
      (∀ a ∈ alerts, (a.location_oblast_uid).isSome = true) →
      ∃ res, Ukraine.set_alerts regions alerts = some res ∧
        res.length = regions.length ∧
        ∀ i r0, regions.get? i = some r0 →
          (res.get? i).map Region.status =
            some (if alerts.any (alertMatches r0.id) = true then some "A" else none) := by
  intro regions alerts h
  induction regions with
  | nil =>
    refine ⟨[], rfl, rfl, ?_⟩
    intro i r0 hr
    simp at hr
  | cons r rest ih =>
    obtain ⟨res, hres, hlen, hstat⟩ := ih
    obtain ⟨x, hx, hxs⟩ := findAlert_of_all_some alerts r.id h
    refine ⟨({ r with status := if x.isSome then some "A" else none }) :: res, ?_, ?_, ?_⟩
    · simp [Ukraine.set_alerts, hx, hres]
    · simp [hlen]
    · intro i r0 hr
      cases i with
      | zero =>
        simp only [List.get?] at hr
        injection hr with hr
        subst hr
        simp [hxs]
      | succ n =>
        simp only [List.get?] at hr ⊢
        exact hstat n r0 hr

/-- Witness for C5: the status formula at a concrete region/alert pair. -/
theorem c5_apply_alerts_status_witness :
    ∃ res, Ukraine.set_alerts [sampleRegion] [goodAlert] = some res ∧
      res.length = [sampleRegion].length ∧
      ∀ i r0, [sampleRegion].get? i = some r0 →
        (res.get? i).map Region.status =
          some (if [goodAlert].any (alertMatches r0.id) = true then some "A" else none) :=
  c5_apply_alerts_status [sampleRegion] [goodAlert] (by decide)

/-! ## The controller (`src/app.rs`)

`App::run` owns a single unbounded tokio mpsc channel `(action_tx,
action_rx)`.  Every producer — the event translation, the detached fetch
timer, the drain arms themselves (`Locale` sends `Refresh`, a successful
`Fetch` sends `Refresh`, draw failures send `Error`), and every component's
`update` return value — sends onto the *same* channel, and each loop
iteration drains it with `while let Ok(action) = action_rx.try_recv()`
until the channel is empty.

The `Action::Fetch` arm (`src/app.rs:199-208`) is
`let alerts_as = self.data_repository.fetch_alerts_string().await?;` — the
`?` operator: on `Err`, `run` returns the error and the loop terminates; on
`Ok`, `ukraine.set_alerts(alerts_as)` replaces the stored status string and
`Action::Refresh` is sent. -/

/-- The `Action` value type as used by `App::run` (`src/app.rs`). -/
inductive Action where
  | tick
  | render
  | resize (w h : Nat)
  | select (delta : Int)
  | fetch
  | locale
  | refresh
  | suspend
  | resume
  | quit
  | error (msg : String)
deriving DecidableEq, Repr

/-- Fetch-side failures of the `DataPort` collaborator
(`ApiError` in `ralertsinua-http/src/client.rs`, abstracted). -/
inductive FetchErr where
  | network
  | unauthorized
  | rateLimited
  | serverError
  | decodeFailure
deriving DecidableEq, Repr

/-- The `AlertsByRegion` wrapper (`src/alerts.rs:33-55`): the shared
`ArrayString<27>` holding the last applied status string. -/
structure AlertsByRegion where
  alerts : List Char
deriving DecidableEq, Repr

/-- `AlertsByRegionState::set_alerts` for `AlertsByRegion`
(`src/alerts.rs:44-50`): wholesale replacement by the new status string. -/
def AlertsByRegion.set_alerts (_self : AlertsByRegion) (alerts_as : List Char) :
    AlertsByRegion :=
  ⟨alerts_as⟩

/-- `AlertsByRegionState::get_alerts` for `AlertsByRegion`
(`src/alerts.rs:51-54`): the stored string, unchanged. -/
def AlertsByRegion.get_alerts (self : AlertsByRegion) : List Char :=
  self.alerts

/-- The controller-owned mutable state relevant to the `Fetch` arm: the
`RegionStore` status snapshot (the stored alerts string) plus the loop
flags. -/
structure App where
  alerts : AlertsByRegion
  should_quit : Bool
  should_suspend : Bool
deriving DecidableEq, Repr

/-- Outcome of processing one `Action::Fetch` in the drain loop: either the
loop continues with a new state and a list of actions sent onto the bus, or
`run` returns the error (the `?` operator) and the loop is terminated, the
state left as it was. -/
inductive FetchOutcome where
  | continued (st : App) (sent : List Action)
  | errored (st : App) (e : FetchErr)
deriving DecidableEq, Repr

/-- The `Action::Fetch` arm of `App::run` (`src/app.rs:199-208`), with the
awaited `fetch_alerts_string` result passed in explicitly: `Err` propagates
out of `run` via `?` (loop terminated, state untouched, nothing sent);
`Ok` stores the string via `set_alerts` and sends `Action::Refresh`. -/
def App.handleFetchAction (st : App) (fetchResult : Except FetchErr (List Char)) :
    FetchOutcome :=
  match fetchResult with
  | .error e => .errored st e
  | .ok s => .continued { st with alerts := st.alerts.set_alerts s } [Action.refresh]

/-- A concrete controller state for the C1 counterexample. -/
def app0 : App :=
  { alerts := ⟨"ANNAANNANNNPANANANNNNAANNNN".toList⟩,
    should_quit := false, should_suspend := false }

/-- **C1 counterexample.** The claim says a failed fetch is converted into a
`FetchFailed`/`Error` action and the loop continues.  In the code
(`src/app.rs:199-208`) the `?` on `fetch_alerts_string` makes `run` return
the error instead: at a concrete network failure the outcome is not
`continued` for any successor state and action list. -/
theorem c1_fetch_failure_cex :
    ¬ ∃ (st' : App) (sent : List Action),
        App.handleFetchAction app0 (Except.error FetchErr.network) =
          FetchOutcome.continued st' sent := by
  rintro ⟨st', sent, h⟩
  simp [App.handleFetchAction] at h

/-- **C1 (amended).** A failed fetch terminates the main loop: the
`Action::Fetch` arm propagates the error out of `App::run` via `?`, sending
no action; the `RegionStore` status snapshot is left byte-for-byte identical
(the `errored` outcome carries the pre-failure state unchanged).  On success
the arm replaces the stored string and sends `Refresh`. -/
theorem c1_fetch_failure_terminates :
    (∀ (st : App) (e : FetchErr),
      App.handleFetchAction st (Except.error e) = FetchOutcome.errored st e) ∧
    (∀ (st : App) (s : List Char),
      App.handleFetchAction st (Except.ok s) =
        FetchOutcome.continued { st with alerts := st.alerts.set_alerts s }
          [Action.refresh]) :=
  ⟨fun _ _ => rfl, fun _ _ => rfl⟩

/-! ### The drain loop's scheduling of derived actions -/

/-- The actions the controller itself sends back onto the bus while handling
one action inside the drain loop of `App::run` (success paths; the further
sends of component `update`s live outside `src/`): `Locale` sends `Refresh`
(`src/app.rs:165-168`), a successful `Fetch` sends `Refresh`
(`src/app.rs:199-208`); the remaining arms send nothing on their success
path. -/
def App.handleAction (a : Action) : List Action :=
  match a with
  | .locale => [.refresh]
  | .fetch => [.refresh]
  | _ => []

/-- The drain loop of `App::run` (`src/app.rs:154-216`): pop the front of
the single FIFO channel, handle it (appending whatever the handler sends to
the *same* channel's back), and repeat until the channel is empty.  Returns
the actions processed in this cycle, in order, plus a completion flag
(`false` when the fuel ran out first). -/
def drainBus : Nat → List Action → List Action → List Action × Bool
  | 0, _, processed => (processed, false)
  | Nat.succ _, [], processed => (processed, true)
  | Nat.succ n, a :: queue, processed =>
      drainBus n (queue ++ App.handleAction a) (processed ++ [a])

/-- **C3 counterexample.** The claim says derived actions are enqueued for
the next drain cycle only and never drained within the same cycle.  The code
has a single channel drained until empty: a cycle starting with just
`Locale` completes having processed the derived `Refresh` too — the
processed sequence is not the initial queue. -/
theorem c3_same_cycle_cex :
    (drainBus 3 [Action.locale] []).2 = true ∧
    (drainBus 3 [Action.locale] []).1 ≠ [Action.locale] := by
  decide

/-- **C3 (amended).** Derived actions are sent onto the same channel the
drain loop is reading and the loop drains until the channel is empty, so a
derived action is processed within the *same* cycle: one drain step appends
the handler's sends to the current cycle's queue, and the cycle that starts
with `Locale` alone processes `Locale` and then its derived `Refresh`. -/
theorem c3_same_cycle_drain :
    (∀ (n : Nat) (a : Action) (queue processed : List Action),
      drainBus (n + 1) (a :: queue) processed =
        drainBus n (queue ++ App.handleAction a) (processed ++ [a])) ∧
    (drainBus 3 [Action.locale] []).1 = [Action.locale, Action.refresh] ∧
    Action.refresh ∉ [Action.locale] := by
  refine ⟨fun n a queue processed => rfl, by decide, by decide⟩

/-! ## Decode-then-apply, per ordinal (C6)

After a fetch, `App::run` stores the fetched status string wholesale via
`set_alerts`; the renderer (`Ukraine::new` → `RegionsList::new` →
`Region::to_list_item`) then reads character `i` of the stored string as the
status of region ordinal `i`, interpreting it exactly as
`From<char> for AlertStatus` does ('A' alert arm, 'P' marker arm, default
arm otherwise). -/

/-- The status-to-style correspondence of `Region::to_list_item`:
`A` renders the alert-row color, `P` the marker color, `N` the default
text color. -/
def statusColor : AlertStatus → Color
  | .A => .alertRow
  | .P => .marker
  | .N => .text

/-- The status of region ordinal `i` as read back from the applied status
string: character `i` of `get_alerts`, decoded per `From<char>`. -/
def regionStatusAt (ab : AlertsByRegion) (i : Nat) : Option AlertStatus :=
  (ab.get_alerts.get? i).map AlertStatus.ofChar

/-- The spec's concrete 27-character status string (also the body of the
repository's own `test_fetch_alerts_string`). -/
def demoStatusString : List Char := "ANNAANNANNNPANANANNNNAANNNN".toList

/-- The same string as it arrives over the wire, quoted. -/
def demoRawResponse : List Char := "\"ANNAANNANNNPANANANNNNAANNNN\"".toList

/-- **C6.** For every raw response whose trimmed form has exactly 27
characters, decoding (`fetch_alerts_string`) succeeds and applying the
result (`set_alerts`) makes region ordinal `i`'s status the decoded
character `i`, for every `i`; concretely, the spec's demo string gives
ordinal 0 = Active, 1 = None, 3 = Active, 11 = Partial; and the rendering
arm agrees with the per-character decode (`to_list_item`'s color is the
decoded status's color). -/
theorem c6_decode_apply :
    (∀ (raw : List Char) (ab : AlertsByRegion), (trimQuotes raw).length = 27 →
      ∃ s, fetch_alerts_string raw = some s ∧ s.length = 27 ∧
        ∀ i, regionStatusAt (ab.set_alerts s) i = (s.get? i).map AlertStatus.ofChar) ∧
    regionStatusAt (AlertsByRegion.set_alerts ⟨[]⟩ demoStatusString) 0 = some .A ∧
    regionStatusAt (AlertsByRegion.set_alerts ⟨[]⟩ demoStatusString) 1 = some .N ∧
    regionStatusAt (AlertsByRegion.set_alerts ⟨[]⟩ demoStatusString) 3 = some .A ∧
    regionStatusAt (AlertsByRegion.set_alerts ⟨[]⟩ demoStatusString) 11 = some .P ∧
    (∀ (r : Region) (idx : Int) (c : Char),
      (r.to_list_item idx c).color = statusColor (AlertStatus.ofChar c)) := by
  refine ⟨?_, by decide, by decide, by decide, by decide, ?_⟩
  · intro raw ab h
    refine ⟨trimQuotes raw, ?_, h, fun i => rfl⟩
    simp [fetch_alerts_string, h]
  · intro r idx c
    by_cases hA : c = 'A'
    · simp [Region.to_list_item, AlertStatus.ofChar, statusColor, hA]
    · by_cases hP : c = 'P'
      · simp [Region.to_list_item, AlertStatus.ofChar, statusColor, hA, hP]
      · simp [Region.to_list_item, AlertStatus.ofChar, statusColor, hA, hP]

/-- Witness for C6: the quoted demo response decodes and applies, giving
every ordinal the decoded character. -/
theorem c6_decode_apply_witness :
    ∃ s, fetch_alerts_string demoRawResponse = some s ∧ s.length = 27 ∧
      ∀ i, regionStatusAt (AlertsByRegion.set_alerts ⟨[]⟩ s) i =
        (s.get? i).map AlertStatus.ofChar :=
  c6_decode_apply.1 demoRawResponse ⟨[]⟩ (by decide)

end AlertsInUa
